import Mathlib

/-!
# Verification of the VoiceKey fractal-detection core (`analyze.py`)

A shallow embedding of the core pipeline of `analyze.py`:
the Higuchi fractal-dimension estimator (`vectorized_higuchi_fd`),
detrended fluctuation analysis (`vectorized_dfa`), the window scanner
(`analyze_audio`), the adaptive threshold (`adaptive_threshold`), the
classifier (`classify_voice`) and the retroactive three-segment
aggregation (`retroactive_analysis`).

Modelling conventions:
* audio samples and feature values are real numbers (`ℝ`); the Python
  floats are modelled by exact real arithmetic;
* window sizes (seconds) and time offsets are exact rationals (`ℚ`);
* Python's `int(x)` on nonnegative values is `Int.floor`;
* `np.polyfit(x, y, 1)` is modelled by the closed-form ordinary
  least-squares slope and intercept;
* Python functions that raise on some inputs are embedded as
  `Option`-valued functions returning `none` there.
-/

open BigOperators

namespace VoiceKey

/-- Model of `np.arange(a, b)` for naturals: the list `[a, a+1, ..., b-1]`. -/
def arange (a b : ℕ) : List ℕ := List.range' a (b - a)

/-- Indexing `ts[i]` of a numpy array, total with default `0`
(every use in the embedded code is in bounds). -/
def nget (ts : List ℝ) (i : ℕ) : ℝ := ts.getD i 0

/-- Model of `np.mean` of a 1-d array: sum divided by length. -/
noncomputable def rmean (xs : List ℝ) : ℝ := xs.sum / xs.length

/-- Population variance (the square of `np.std`): mean squared deviation
from the mean. -/
noncomputable def rvar (xs : List ℝ) : ℝ :=
  rmean (xs.map (fun x => (x - rmean xs) ^ 2))

/-- Model of `np.std` of a 1-d array: square root of the population variance. -/
noncomputable def npStd (xs : List ℝ) : ℝ := Real.sqrt (rvar xs)

/-- Slope of `np.polyfit(xs, ys, 1)`: the closed-form degree-1 ordinary
least-squares slope `(n·Σxy − Σx·Σy) / (n·Σx² − (Σx)²)`. -/
noncomputable def polyfit_slope (xs ys : List ℝ) : ℝ :=
  let n : ℝ := xs.length
  (n * (List.zipWith (· * ·) xs ys).sum - xs.sum * ys.sum) /
    (n * (xs.map (fun x => x ^ 2)).sum - xs.sum ^ 2)

/-- Intercept of `np.polyfit(xs, ys, 1)`:
`(Σy − slope·Σx) / n` for the same least-squares line. -/
noncomputable def polyfit_intercept (xs ys : List ℝ) : ℝ :=
  (ys.sum - polyfit_slope xs ys * xs.sum) / xs.length

/-! ## Higuchi fractal dimension (`vectorized_higuchi_fd`, analyze.py lines 14-32) -/

/-- One normalized curve length `Lmk` of the Higuchi estimator, for scale `k`
and offset `m` (analyze.py lines 21-26):
`indices = np.arange(1, (N-m)//k)`;
`Lmki = Σ_i |ts[m+i·k] − ts[m+(i−1)·k]|`, then
`Lmki · (N−1) / (((N−m)//k)·k)`. -/
noncomputable def higuchi_Lmk (ts : List ℝ) (k m : ℕ) : ℝ :=
  let N := ts.length
  (((arange 1 ((N - m) / k)).map
      (fun i => |nget ts (m + i * k) - nget ts (m + (i - 1) * k)|)).sum)
    * ((N : ℝ) - 1) / (((N - m) / k * k : ℕ) : ℝ)

/-- Average curve length `Lk[k_idx] = np.mean(Lmk)` over offsets `m ∈ range k`
(analyze.py line 27). -/
noncomputable def higuchi_Lk (ts : List ℝ) (k : ℕ) : ℝ :=
  (((List.range k).map (fun m => higuchi_Lmk ts k m)).sum) / k

/-- Scale list `k_range = np.arange(1, min(k_max, N//2) + 1)` (analyze.py line 17). -/
def higuchi_krange (N kmax : ℕ) : List ℕ := arange 1 (min kmax (N / 2) + 1)

/-- Embedding of `vectorized_higuchi_fd` (analyze.py lines 14-32): slope of the degree-1
least-squares fit of `log(1/k)` against `log(Lk)` over `k_range`. -/
noncomputable def vectorized_higuchi_fd (ts : List ℝ) (kmax : ℕ) : ℝ :=
  let ks := higuchi_krange ts.length kmax
  polyfit_slope (ks.map (fun k => Real.log (1 / (k : ℝ))))
    (ks.map (fun k => Real.log (higuchi_Lk ts k)))

/-! ## Classifier decision rule (analyze.py line 126) -/

/-- Python boolean used in arithmetic: `True = 1`, `False = 0`. -/
def bool_val (b : Bool) : ℚ := if b then 1 else 0

/-- Decision `is_ai = (hfd_weight * hfd_ai + dfa_weight * dfa_ai) > 0.5` with
`hfd_weight = 0.7`, `dfa_weight = 0.3` (analyze.py lines 109-110, 126). -/
def is_ai_decision (hfd_ai dfa_ai : Bool) : Bool :=
  decide ((7 / 10 : ℚ) * bool_val hfd_ai + (3 / 10 : ℚ) * bool_val dfa_ai > 1 / 2)

/-! ## Detrended fluctuation analysis (`vectorized_dfa`, analyze.py lines 34-59) -/

/-- Scale list `scales = np.arange(scale_lim[0], min(scale_lim[1], N // 4))`
(analyze.py line 37).  Note the exclusive upper bound of `np.arange`. -/
def dfa_scales (N lo hi : ℕ) : List ℕ := arange lo (min hi (N / 4))

/-- Model of `np.cumsum`: the list of running prefix sums
`[x₀, x₀+x₁, x₀+x₁+x₂, ...]`. -/
noncomputable def cumsum (xs : List ℝ) : List ℝ :=
  (xs.scanl (· + ·) 0).tail

/-- The integrated profile `y = np.cumsum(ts - np.mean(ts))`
(analyze.py line 40). -/
noncomputable def dfa_profile (ts : List ℝ) : List ℝ :=
  cumsum (ts.map (fun x => x - rmean ts))

/-- Segment slice `segment = y[j*scale:(j+1)*scale]` (analyze.py line 47). -/
noncomputable def dfa_segment (ts : List ℝ) (s j : ℕ) : List ℝ :=
  ((dfa_profile ts).drop (j * s)).take s

/-- Per-segment detrended root-mean-square residual (analyze.py lines 48-51):
`t = np.arange(scale)`, `coef = np.polyfit(t, segment, 1)`,
`trend = np.polyval(coef, t)`, then `sqrt(mean((segment - trend)**2))`. -/
noncomputable def detrended_rms (s : ℕ) (seg : List ℝ) : ℝ :=
  let t := (List.range s).map (fun i => (i : ℝ))
  let a := polyfit_slope t seg
  let b := polyfit_intercept t seg
  Real.sqrt (rmean ((List.range s).map
    (fun i => (nget seg i - (a * (i : ℝ) + b)) ^ 2)))

/-- Fluctuation `F[i] = np.mean(F_scale)` for scale `s`, with `segments = N // s`
segments (analyze.py lines 42-53). -/
noncomputable def dfa_F (ts : List ℝ) (s : ℕ) : ℝ :=
  let nseg := ts.length / s
  (((List.range nseg).map (fun j => detrended_rms s (dfa_segment ts s j))).sum)
    / (nseg : ℝ)

/-- Embedding of `vectorized_dfa` (analyze.py lines 34-59): slope of the degree-1
least-squares fit of `log(scales)` against `log(F)`. -/
noncomputable def vectorized_dfa (ts : List ℝ) (lo hi : ℕ) : ℝ :=
  let scales := dfa_scales ts.length lo hi
  polyfit_slope (scales.map (fun s => Real.log (s : ℝ)))
    (scales.map (fun s => Real.log (dfa_F ts s)))

/-! ## Window scanner (`analyze_audio`, analyze.py lines 61-90) -/

/-- Window length `window_samples = int(size * sr)` (analyze.py line 70); `size > 0` in
every configuration so `int` truncation is `Int.floor`. -/
def window_samples (size : ℚ) (sr : ℕ) : ℤ := ⌊size * (sr : ℚ)⌋

/-- Step `step_samples = int(0.1 * sr)` (analyze.py line 71).  The step depends
only on the sample rate, not on any window size. -/
def step_samples (sr : ℕ) : ℤ := ⌊(1 / 10 : ℚ) * (sr : ℚ)⌋

/-- Step size the claim describes: `⌊0.1 · smallestWindowDuration · sr⌋`,
10% of the smallest configured window duration.  Follows the claim's words,
for comparison against `step_samples` from the source. -/
def step_samples_claim (sizes : List ℚ) (sr : ℕ) : ℤ :=
  ⌊(1 / 10 : ℚ) * sizes.foldr min (sizes.headD 0) * (sr : ℚ)⌋

/-- Python `range(0, stop, step)` for a possibly nonpositive `stop` and a
positive `step`: `⌈stop/step⌉` terms `0, step, 2·step, ...`.  For
`step ≤ 0` Python raises `ValueError`; that configuration (`sr < 10`) is
modelled by the empty list. -/
def pyRange0 (stop step : ℤ) : List ℕ :=
  if step ≤ 0 then []
  else (List.range ((stop + step - 1) / step).toNat).map (fun j => j * step.toNat)

/-- The window offsets scanned for one window size:
`range(0, len(signal) - window_samples + 1, step_samples)`
(analyze.py line 73). -/
def scan_offsets (sigLen : ℕ) (size : ℚ) (sr : ℕ) : List ℕ :=
  pyRange0 ((sigLen : ℤ) - window_samples size sr + 1) (step_samples sr)

/-- The per-size feature series produced by `analyze_audio`
(analyze.py lines 69-84): for each window size, the HFD and DFA values of
each scanned window `signal[i : i + window_samples]`. -/
noncomputable def analyze_series (signal : List ℝ) (sr : ℕ) (sizes : List ℚ)
    (kmax : ℕ) : List (List ℝ × List ℝ) :=
  sizes.map (fun size =>
    let offs := scan_offsets signal.length size sr
    (offs.map (fun i =>
        vectorized_higuchi_fd ((signal.drop i).take (window_samples size sr).toNat) kmax),
     offs.map (fun i =>
        vectorized_dfa ((signal.drop i).take (window_samples size sr).toNat) 5 100)))

/-- The shared time axis (analyze.py lines 81-82): offsets of the first
(reference) window size divided by the sample rate. -/
def analyze_time (sigLen : ℕ) (sizes : List ℚ) (sr : ℕ) : List ℚ :=
  match sizes with
  | [] => []
  | s₀ :: _ => (scan_offsets sigLen s₀ sr).map (fun i => (i : ℚ) / (sr : ℚ))

/-! ## Adaptive threshold (`adaptive_threshold`, analyze.py lines 92-101) -/

/-- Pooled HFD values: `np.concatenate` of every size's HFD series in
configuration order (analyze.py line 94). -/
def pooled_hfd (rs : List (List ℝ × List ℝ)) : List ℝ := (rs.map Prod.fst).flatten

/-- Pooled DFA values (analyze.py line 95). -/
def pooled_dfa (rs : List (List ℝ × List ℝ)) : List ℝ := (rs.map Prod.snd).flatten

/-- Threshold `threshold = np.mean(vals) + 0.25 * np.std(vals)`
(analyze.py lines 97-98). -/
noncomputable def adaptive_threshold_of (xs : List ℝ) : ℝ :=
  rmean xs + (1 / 4 : ℝ) * npStd xs

/-! ## Classifier (`classify_voice`, analyze.py lines 103-133) -/

open scoped Classical in
/-- One iteration of the classification loop at start index `i`
(analyze.py lines 112-127): 5-sample sub-windows of every size's HFD and
DFA series, averaged means and averaged standard deviations, the two
`or`-flags, and the weighted decision. -/
noncomputable def classify_step (rs : List (List ℝ × List ℝ)) (ht dt : ℝ)
    (i : ℕ) : Bool :=
  let whfd := rs.map (fun p => (p.1.drop i).take 5)
  let wdfa := rs.map (fun p => (p.2.drop i).take 5)
  let hfd_avg := rmean (whfd.map rmean)
  let dfa_avg := rmean (wdfa.map rmean)
  let hfd_var := rmean (whfd.map npStd)
  let dfa_var := rmean (wdfa.map npStd)
  let hfd_ai : Bool := decide (hfd_avg > ht) || decide (hfd_var > 1 / 10)
  let dfa_ai : Bool := decide (dfa_avg > dt) || decide (dfa_var > 1 / 20)
  is_ai_decision hfd_ai dfa_ai

/-- Common length `min_length = min(len(results['hfd'][size]) for size in results['hfd'])`
(analyze.py line 106); `none` models the `ValueError` that Python's `min`
raises on an empty collection. -/
def classify_min_length (rs : List (List ℝ × List ℝ)) : Option ℕ :=
  (rs.map (fun p => p.1.length)).min?

/-- Embedding of `classify_voice` (analyze.py lines 103-133).  The loop runs over
`range(min_length - window_size + 1)` with `window_size = 5` (in ℕ this is
`min_length - 4`, matching Python's empty range for `min_length < 5`), then
the result is padded with `window_size - 1 = 4` copies of its last value;
`classifications[-1]` on an empty list raises `IndexError`, modelled by
`none`. -/
noncomputable def classify_voice (rs : List (List ℝ × List ℝ)) (ht dt : ℝ) :
    Option (List Bool) :=
  match classify_min_length rs with
  | none => none
  | some minLength =>
    let computed := (List.range (minLength - 4)).map (classify_step rs ht dt)
    match computed.getLast? with
    | none => none
    | some last => some (computed ++ List.replicate 4 last)

/-! ## Retroactive aggregation (`retroactive_analysis`, analyze.py lines 196-226) -/

/-- The three segment ranges (analyze.py lines 203-210):
`d = total/3`, ranges `(0, d)`, `(d, 2d)`, `(2d, total)`. -/
def retro_segments (total : ℚ) : List (ℚ × ℚ) :=
  [(0, total / 3), (total / 3, 2 * (total / 3)), (2 * (total / 3), total)]

/-- Membership test applied to a timestamp for one range
(analyze.py line 215): `(time >= start) & (time < end)` — half-open for
every range, the last one included. -/
def retro_member (t : ℚ) (p : ℚ × ℚ) : Bool :=
  decide (p.1 ≤ t) && decide (t < p.2)

/-- In how many of the three ranges a timestamp is selected. -/
def retro_count (total t : ℚ) : ℕ :=
  ((retro_segments total).filter (retro_member t)).length

/-! ## Full pipeline -/

/-- The core pipeline for a fixed signal and configuration: window scan,
pooled thresholds and classification (analyze.py lines 239-242). -/
noncomputable def full_run (signal : List ℝ) (sr : ℕ) (sizes : List ℚ)
    (kmax : ℕ) :
    List ℚ × List (List ℝ × List ℝ) × ℝ × ℝ × Option (List Bool) :=
  let rs := analyze_series signal sr sizes kmax
  let ht := adaptive_threshold_of (pooled_hfd rs)
  let dt := adaptive_threshold_of (pooled_dfa rs)
  (analyze_time signal.length sizes sr, rs, ht, dt, classify_voice rs ht dt)

/-! ## Definitions following the claims' words

These definitions are written from the claims' words (not from the
source), to be compared with the source-derived definitions above. -/

/-- Curve length `Lmk` as claim C4 states it: the sum of the absolute
differences of ALL successive k-spaced samples starting at `m` — every
index `m + i·k ≤ N − 1`, i.e. `i` up to `(N − 1 − m)/k` — with the same
normalization `(N−1)/(((N−m)//k)·k)`. -/
noncomputable def higuchi_Lmk_claim (ts : List ℝ) (k m : ℕ) : ℝ :=
  let N := ts.length
  (∑ i in Finset.Icc 1 ((N - 1 - m) / k),
      |nget ts (m + i * k) - nget ts (m + (i - 1) * k)|)
    * ((N : ℝ) - 1) / (((N - m) / k * k : ℕ) : ℝ)

/-- Curve length `Lmk` as amended: the sum runs over
`1 ≤ i < (N−m)//k` only, omitting the final k-spaced difference
whenever `k` does not divide `N − m`. -/
noncomputable def higuchi_Lmk_amended (ts : List ℝ) (k m : ℕ) : ℝ :=
  let N := ts.length
  (∑ i in Finset.Ico 1 ((N - m) / k),
      |nget ts (m + i * k) - nget ts (m + (i - 1) * k)|)
    * ((N : ℝ) - 1) / (((N - m) / k * k : ℕ) : ℝ)

/-- Average curve length over the `k` offsets, written with the amended
per-offset formula. -/
noncomputable def higuchi_Lk_amended (ts : List ℝ) (k : ℕ) : ℝ :=
  (∑ m in Finset.range k, higuchi_Lmk_amended ts k m) / k

/-- The Higuchi estimator as amended: the slope of the degree-1
least-squares fit of `log(1/k)` against `log(Lk)` over
`k ∈ [1, min(kMax, N/2)]`, with `Lk` the amended average curve length. -/
noncomputable def higuchiFD_amended (ts : List ℝ) (kmax : ℕ) : ℝ :=
  let ks := higuchi_krange ts.length kmax
  polyfit_slope (ks.map (fun k => Real.log (1 / (k : ℝ))))
    (ks.map (fun k => Real.log (higuchi_Lk_amended ts k)))

/-- Scale list as claim C5 states it: every integer scale in the
INCLUSIVE range `[lo, min(hi, N/4)]`. -/
def dfa_scales_claim (N lo hi : ℕ) : List ℕ := arange lo (min hi (N / 4) + 1)

/-- Fluctuation `F(s)` written as the claim words it: the average over the
`N // s` non-overlapping length-`s` segments of the per-segment
root-mean-square residual after subtracting the least-squares line. -/
noncomputable def dfa_F_spec (ts : List ℝ) (s : ℕ) : ℝ :=
  (∑ j in Finset.range (ts.length / s), detrended_rms s (dfa_segment ts s j))
    / ((ts.length / s : ℕ) : ℝ)

/-! ## Helper lemmas -/

/-- Summing a function over `List.range' a n` is a shifted `Finset.range`
sum. -/
lemma sum_map_range' (f : ℕ → ℝ) (a n : ℕ) :
    ((List.range' a n).map f).sum = ∑ j in Finset.range n, f (a + j) := by
  induction n generalizing a with
  | zero => simp
  | succ n ih =>
    rw [List.range'_succ, List.map_cons, List.sum_cons, ih (a + 1),
      Finset.sum_range_succ']
    have h1 : ∀ j, f (a + 1 + j) = f (a + (j + 1)) :=
      fun j => congrArg f (by omega)
    simp only [h1, Nat.add_zero]
    exact add_comm _ _

/-- Summing a function over `List.range n` is a `Finset.range` sum. -/
lemma sum_map_range (f : ℕ → ℝ) (n : ℕ) :
    ((List.range n).map f).sum = ∑ j in Finset.range n, f j := by
  rw [List.range_eq_range', sum_map_range']
  simp

/-- Summing a function over `arange a b` is a sum over the half-open
interval `[a, b)`. -/
lemma sum_map_arange (f : ℕ → ℝ) (a b : ℕ) :
    ((arange a b).map f).sum = ∑ i in Finset.Ico a b, f i := by
  rw [arange, sum_map_range', Finset.sum_Ico_eq_sum_range]

/-- Indexing an all-zero buffer always yields zero. -/
lemma nget_replicate (n i : ℕ) : nget (List.replicate n (0 : ℝ)) i = 0 := by
  simp [nget, List.getD_eq_getElem?_getD, List.getElem?_replicate]
  split <;> simp

/-- Every element of `pyRange0 stop step` at position `j` is `j · step`. -/
lemma pyRange0_getD (stop step : ℤ) (j : ℕ)
    (hj : j < (pyRange0 stop step).length) :
    (pyRange0 stop step).getD j 0 = j * step.toNat := by
  unfold pyRange0 at *
  by_cases h : step ≤ 0
  · rw [if_pos h] at hj
    simp at hj
  · rw [if_neg h] at hj ⊢
    simp only [List.length_map, List.length_range] at hj
    rw [List.getD_eq_getElem?_getD, List.getElem?_map, List.getElem?_range hj]
    rfl

/-- Concrete scan: a 30-sample signal at sample rate 10 with a 2-second
window is scanned at offsets 0..10, stride 1. -/
lemma scan_offsets_30_2_10 :
    scan_offsets 30 2 10 = [0, 1, 2, 3, 4, 5, 6, 7, 8, 9, 10] := by
  have h1 : window_samples 2 10 = 20 := by
    rw [window_samples]
    norm_num
  have h2 : step_samples 10 = 1 := by
    rw [step_samples]
    norm_num
  rw [scan_offsets, h1, h2]
  decide

/-- The weighted decision always equals its HFD flag. -/
lemma is_ai_eq (h d : Bool) : is_ai_decision h d = h := by
  cases h <;> cases d <;>
    simp only [is_ai_decision, bool_val, if_true, if_false, decide_eq_true_eq,
      decide_eq_false_iff_not, not_lt, gt_iff_lt] <;> norm_num

/-! ## Claim C7 -/

/-- C7: for all flag values, the decision
`(0.7·hfdFlag + 0.3·dfaFlag) > 0.5` is true exactly when `hfdFlag` is set,
and consequently each time step's classification does not depend on the DFA
side of the rule (here: on the DFA threshold feeding `dfaFlag`). -/
theorem weighted_decision_is_hfd :
    (∀ h d : Bool, is_ai_decision h d = h) ∧
    (∀ (rs : List (List ℝ × List ℝ)) (ht dt dt' : ℝ) (i : ℕ),
      classify_step rs ht dt i = classify_step rs ht dt' i) := by
  refine ⟨fun h d => is_ai_eq h d, fun rs ht dt dt' i => ?_⟩
  simp only [classify_step, is_ai_eq]

/-! ## Claim C9 -/

/-- C9: the core pipeline is a deterministic function of the signal and
configuration: equal inputs give identical time axis, feature series,
thresholds and classification series (every stage of the embedding is a
pure function with no hidden state). -/
theorem full_run_deterministic (sig₁ sig₂ : List ℝ) (sr₁ sr₂ : ℕ)
    (sizes₁ sizes₂ : List ℚ) (k₁ k₂ : ℕ)
    (h₁ : sig₁ = sig₂) (h₂ : sr₁ = sr₂) (h₃ : sizes₁ = sizes₂)
    (h₄ : k₁ = k₂) :
    full_run sig₁ sr₁ sizes₁ k₁ = full_run sig₂ sr₂ sizes₂ k₂ := by
  subst h₁
  subst h₂
  subst h₃
  subst h₄
  rfl

/-- Witness for C9 at a concrete signal and the default configuration. -/
theorem full_run_deterministic_witness :
    ([(1 : ℝ), 2] = [(1 : ℝ), 2]) ∧
      full_run [(1 : ℝ), 2] 16000 [1, 3] 10 = full_run [(1 : ℝ), 2] 16000 [1, 3] 10 :=
  ⟨rfl, full_run_deterministic [(1 : ℝ), 2] [(1 : ℝ), 2] 16000 16000 [1, 3] [1, 3]
    10 10 rfl rfl rfl rfl⟩

/-! ## Claim C1 -/

/-- C1 counterexample: with the single configured window size of 2 seconds
and sample rate 10, the code's step is `int(0.1 * 10) = 1` sample — 10% of
one second — while the claim's formula `⌊0.1 · smallestSize · sr⌋` gives 2;
the scan for the 2-second window indeed advances by 1 sample. -/
theorem step_size_counterexample :
    step_samples 10 = 1 ∧ step_samples_claim [2] 10 = 2 ∧
      scan_offsets 30 2 10 = [0, 1, 2, 3, 4, 5, 6, 7, 8, 9, 10] := by
  refine ⟨?_, ?_, scan_offsets_30_2_10⟩
  · rw [step_samples]
    norm_num
  · rw [step_samples_claim]
    simp only [List.foldr_cons, List.foldr_nil, List.headD_cons, min_self]
    norm_num

/-- C1 amended: the window scan advances every window size by one shared
step of `⌊0.1 · sr⌋` samples (10% of one second of audio), independent of
the configured window durations: consecutive scanned offsets for any size
differ by exactly `(step_samples sr).toNat`, and
`step_samples sr = ⌊0.1 · sr⌋`. -/
theorem shared_step_amended (L : ℕ) (size : ℚ) (sr : ℕ) (j : ℕ)
    (hj : j + 1 < (scan_offsets L size sr).length) :
    (scan_offsets L size sr).getD (j + 1) 0 - (scan_offsets L size sr).getD j 0
        = (step_samples sr).toNat
      ∧ step_samples sr = ⌊(1 / 10 : ℚ) * (sr : ℚ)⌋ := by
  refine ⟨?_, rfl⟩
  unfold scan_offsets at *
  rw [pyRange0_getD _ _ _ hj, pyRange0_getD _ _ _ (Nat.lt_of_succ_lt hj)]
  rw [Nat.succ_mul]
  exact Nat.add_sub_cancel_left _ _

/-- Witness for the amended C1 at a 3-second signal, 2-second window,
sample rate 10. -/
theorem shared_step_amended_witness :
    0 + 1 < (scan_offsets 30 2 10).length ∧
      ((scan_offsets 30 2 10).getD (0 + 1) 0 - (scan_offsets 30 2 10).getD 0 0
          = (step_samples 10).toNat
        ∧ step_samples 10 = ⌊(1 / 10 : ℚ) * ((10 : ℕ) : ℚ)⌋) :=
  ⟨by simp [scan_offsets_30_2_10],
    shared_step_amended 30 2 10 0 (by simp [scan_offsets_30_2_10])⟩

/-! ## Claim C5 -/

/-- C5 counterexample: for a series of length 40 with the default scale
bounds `[5, 100]`, the code evaluates `F` only at scales 5..9 — the top
scale `min(100, 40/4) = 10` of the claim's inclusive range is omitted. -/
theorem dfa_scales_counterexample :
    dfa_scales 40 5 100 = [5, 6, 7, 8, 9] ∧
      dfa_scales_claim 40 5 100 = [5, 6, 7, 8, 9, 10] := by
  decide

/-! ## Claim C2 -/

/-- Length of a filter over a three-element list, as a sum of indicator
values. -/
lemma filter_three_length {α : Type} (p : α → Bool) (a b c : α) :
    (List.filter p [a, b, c]).length
      = (if p a then 1 else 0) + (if p b then 1 else 0)
          + (if p c then 1 else 0) := by
  cases ha : p a <;> cases hb : p b <;> cases hc : p c <;>
    simp [List.filter_cons, List.filter_nil, ha, hb, hc]

/-- Range membership as a proposition. -/
lemma retro_member_iff (t : ℚ) (p : ℚ × ℚ) :
    retro_member t p = true ↔ p.1 ≤ t ∧ t < p.2 := by
  simp [retro_member]

/-- C2 counterexample: with a truncated time axis ending at
`totalDuration = 3` (for example `time = [0, 3/2, 3]`), the final
timestamp `3` is selected by none of the three ranges: the code filters
every range — the last one included — with `time < end`, so the last
range is not closed at `totalDuration` and the final timestamp falls in
zero ranges, not in exactly one. -/
theorem retro_final_timestamp_counterexample : retro_count 3 3 = 0 := by
  rw [retro_count, retro_segments, filter_three_length]
  norm_num [retro_member]

/-- C2 amended: the code's retroactive aggregation makes all three ranges
half-open `[start, end)`; every timestamp `t` with `0 ≤ t < totalDuration`
falls in exactly one range, while the final timestamp equal to
`totalDuration` falls in none of them. -/
theorem retro_partition_amended :
    (∀ total t : ℚ, 0 ≤ t → t < total → retro_count total t = 1) ∧
      (∀ total : ℚ, 0 ≤ total → retro_count total total = 0) := by
  constructor
  · intro total t h0 hlt
    have htot : 0 < total := lt_of_le_of_lt h0 hlt
    rw [retro_count, retro_segments, filter_three_length]
    rcases lt_or_le t (total / 3) with h1 | h1
    · have m1 : retro_member t (0, total / 3) = true :=
        (retro_member_iff _ _).mpr ⟨h0, h1⟩
      have m2 : ¬(retro_member t (total / 3, 2 * (total / 3)) = true) := fun hm => by
        have h := (retro_member_iff _ _).mp hm
        linarith [h.1]
      have m3 : ¬(retro_member t (2 * (total / 3), total) = true) := fun hm => by
        have h := (retro_member_iff _ _).mp hm
        linarith [h.1]
      simp [m1, m2, m3]
    · rcases lt_or_le t (2 * (total / 3)) with h2 | h2
      · have m1 : ¬(retro_member t (0, total / 3) = true) := fun hm => by
          have h := (retro_member_iff _ _).mp hm
          linarith [h.2]
        have m2 : retro_member t (total / 3, 2 * (total / 3)) = true :=
          (retro_member_iff _ _).mpr ⟨h1, h2⟩
        have m3 : ¬(retro_member t (2 * (total / 3), total) = true) := fun hm => by
          have h := (retro_member_iff _ _).mp hm
          linarith [h.1]
        simp [m1, m2, m3]
      · have m1 : ¬(retro_member t (0, total / 3) = true) := fun hm => by
          have h := (retro_member_iff _ _).mp hm
          linarith [h.2]
        have m2 : ¬(retro_member t (total / 3, 2 * (total / 3)) = true) := fun hm => by
          have h := (retro_member_iff _ _).mp hm
          linarith [h.2]
        have m3 : retro_member t (2 * (total / 3), total) = true :=
          (retro_member_iff _ _).mpr ⟨h2, hlt⟩
        simp [m1, m2, m3]
  · intro total h0
    rw [retro_count, retro_segments, filter_three_length]
    have m1 : ¬(retro_member total (0, total / 3) = true) := fun hm => by
      have h := (retro_member_iff _ _).mp hm
      linarith [h.2]
    have m2 : ¬(retro_member total (total / 3, 2 * (total / 3)) = true) := fun hm => by
      have h := (retro_member_iff _ _).mp hm
      linarith [h.2]
    have m3 : ¬(retro_member total (2 * (total / 3), total) = true) := fun hm => by
      have h := (retro_member_iff _ _).mp hm
      exact absurd h.2 (lt_irrefl total)
    simp [m1, m2, m3]

/-- Witness for the amended C2 at `totalDuration = 2`: the timestamp `1`
falls in exactly one range, the final timestamp `2` in none. -/
theorem retro_partition_amended_witness :
    ((0 : ℚ) ≤ 1 ∧ (1 : ℚ) < 2 ∧ retro_count 2 1 = 1) ∧
      ((0 : ℚ) ≤ 2 ∧ retro_count 2 2 = 0) :=
  ⟨⟨zero_le_one, one_lt_two, retro_partition_amended.1 2 1 zero_le_one one_lt_two⟩,
    ⟨zero_le_two, retro_partition_amended.2 2 zero_le_two⟩⟩

/-- C5 amended: the DFA evaluates `F(s)` exactly for the integer scales in
the half-open range `[minScale, min(maxScale, N/4))` — the top scale is
excluded — and the returned exponent is the least-squares slope of
`log s` against `log F(s)` with `F` the per-claim segment average of the
detrended root-mean-square residuals. -/
theorem dfa_range_amended (ts : List ℝ) (lo hi : ℕ) :
    (∀ s : ℕ, s ∈ dfa_scales ts.length lo hi ↔ lo ≤ s ∧ s < min hi (ts.length / 4)) ∧
      vectorized_dfa ts lo hi
        = polyfit_slope
            ((dfa_scales ts.length lo hi).map (fun s => Real.log (s : ℝ)))
            ((dfa_scales ts.length lo hi).map (fun s => Real.log (dfa_F_spec ts s))) := by
  constructor
  · intro s
    rw [dfa_scales, arange, List.mem_range'_1]
    omega
  · rfl

/-! ## Claim C6 -/

/-- C6 counterexample: a feature-series input with common length
`minLength = 4` produces zero computed decisions and then fails at the
padding step (`classifications[-1]` on an empty list), so no
classification series of length `minLength` is returned. -/
theorem classify_length_counterexample :
    classify_voice [(([0, 0, 0, 0] : List ℝ), ([0, 0, 0, 0] : List ℝ))] 0 0
      = none := rfl

/-- C6 amended: whenever the common truncated length `minLength` is at
least 5, the classifier computes exactly `minLength - 4` decisions (one
per start index below `minLength - 4`), pads with exactly 4 copies of the
last computed decision, and the returned series has length `minLength`;
for `minLength < 5` the padding step fails instead (claim C10). -/
theorem classify_padding_amended (rs : List (List ℝ × List ℝ)) (ht dt : ℝ)
    (minL : ℕ) (hmin : classify_min_length rs = some minL) (h5 : 5 ≤ minL) :
    ∃ last,
      ((List.range (minL - 4)).map (classify_step rs ht dt)).getLast? = some last ∧
        classify_voice rs ht dt
          = some ((List.range (minL - 4)).map (classify_step rs ht dt)
              ++ List.replicate 4 last) ∧
        ((List.range (minL - 4)).map (classify_step rs ht dt)).length = minL - 4 ∧
        (((List.range (minL - 4)).map (classify_step rs ht dt))
            ++ List.replicate 4 last).length = minL := by
  have hlen : ((List.range (minL - 4)).map (classify_step rs ht dt)).length
      = minL - 4 := by
    simp
  have hne : (List.range (minL - 4)).map (classify_step rs ht dt) ≠ [] := by
    refine List.ne_nil_of_length_pos ?_
    rw [hlen]
    omega
  obtain ⟨last, hlast⟩ :=
    Option.isSome_iff_exists.mp (List.getLast?_isSome.mpr hne)
  refine ⟨last, hlast, ?_, hlen, ?_⟩
  · simp only [classify_voice, hmin, hlast]
  · simp only [List.length_append, hlen, List.length_replicate]
    omega

/-- Witness for the amended C6 with one window-size series of length 5. -/
theorem classify_padding_amended_witness :
    classify_min_length [(([0, 0, 0, 0, 0] : List ℝ), ([0, 0, 0, 0, 0] : List ℝ))]
        = some 5 ∧
      (5 : ℕ) ≤ 5 ∧
      (∃ last,
        ((List.range (5 - 4)).map
            (classify_step [(([0, 0, 0, 0, 0] : List ℝ), ([0, 0, 0, 0, 0] : List ℝ))] 0 0)).getLast?
          = some last ∧
          classify_voice [(([0, 0, 0, 0, 0] : List ℝ), ([0, 0, 0, 0, 0] : List ℝ))] 0 0
            = some ((List.range (5 - 4)).map
                (classify_step [(([0, 0, 0, 0, 0] : List ℝ), ([0, 0, 0, 0, 0] : List ℝ))] 0 0)
                ++ List.replicate 4 last) ∧
          ((List.range (5 - 4)).map
              (classify_step [(([0, 0, 0, 0, 0] : List ℝ), ([0, 0, 0, 0, 0] : List ℝ))] 0 0)).length
            = 5 - 4 ∧
          (((List.range (5 - 4)).map
              (classify_step [(([0, 0, 0, 0, 0] : List ℝ), ([0, 0, 0, 0, 0] : List ℝ))] 0 0))
              ++ List.replicate 4 last).length = 5) :=
  ⟨rfl, le_refl 5,
    classify_padding_amended [(([0, 0, 0, 0, 0] : List ℝ), ([0, 0, 0, 0, 0] : List ℝ))]
      0 0 5 rfl (le_refl 5)⟩

/-! ## Claim C10 -/

/-- C10: whenever the common length `minLength` is below 5, the
classification loop runs zero iterations and `classify_voice` fails at the
padding step (the Python `classifications[-1]` raises `IndexError` on the
empty list) instead of returning a series; `minLength ≥ 5` is exactly the
precondition under which a value is returned. -/
theorem classify_short_input_fails (rs : List (List ℝ × List ℝ)) (ht dt : ℝ)
    (minL : ℕ) (hmin : classify_min_length rs = some minL) :
    (minL < 5 →
      (List.range (minL - 4)).map (classify_step rs ht dt) = [] ∧
        classify_voice rs ht dt = none) ∧
      (5 ≤ minL → (classify_voice rs ht dt).isSome = true) := by
  constructor
  · intro h5
    have h0 : minL - 4 = 0 := by omega
    refine ⟨by simp [h0], ?_⟩
    simp only [classify_voice, hmin, h0, List.range_zero, List.map_nil,
      List.getLast?_nil]
  · intro h5
    have hne : (List.range (minL - 4)).map (classify_step rs ht dt) ≠ [] := by
      refine List.ne_nil_of_length_pos ?_
      simp only [List.length_map, List.length_range]
      omega
    obtain ⟨last, hlast⟩ :=
      Option.isSome_iff_exists.mp (List.getLast?_isSome.mpr hne)
    simp only [classify_voice, hmin, hlast, Option.isSome_some]

/-- Witness for C10 with one window-size series of length 3. -/
theorem classify_short_input_fails_witness :
    classify_min_length [(([0, 0, 0] : List ℝ), ([0, 0, 0] : List ℝ))] = some 3 ∧
      ((3 < 5 →
        (List.range (3 - 4)).map
            (classify_step [(([0, 0, 0] : List ℝ), ([0, 0, 0] : List ℝ))] 0 0) = [] ∧
          classify_voice [(([0, 0, 0] : List ℝ), ([0, 0, 0] : List ℝ))] 0 0 = none) ∧
        (5 ≤ 3 →
          (classify_voice [(([0, 0, 0] : List ℝ), ([0, 0, 0] : List ℝ))] 0 0).isSome
            = true)) :=
  ⟨rfl, classify_short_input_fails [(([0, 0, 0] : List ℝ), ([0, 0, 0] : List ℝ))]
    0 0 3 rfl⟩

/-! ## Claim C4 -/

/-- C4 counterexample: for the series `[0, 0, 0, 0, 1]` at scale `k = 2`,
offset `m = 0`, the code sums `np.arange(1, (N-m)//k) = [1]` — only the
difference `|x₂ − x₀|` — and yields `Lmk = 0`, while the claim's
"ALL successive k-spaced differences" also includes `|x₄ − x₂| = 1` and
yields `Lmk = 1`. -/
theorem higuchi_sum_counterexample :
    higuchi_Lmk [0, 0, 0, 0, 1] 2 0 = 0 ∧
      higuchi_Lmk_claim [0, 0, 0, 0, 1] 2 0 = 1 := by
  have ea : nget [0, 0, 0, 0, 1] (0 + 1 * 2) = 0 := rfl
  have eb : nget [0, 0, 0, 0, 1] (0 + (1 - 1) * 2) = 0 := rfl
  have ec : nget [0, 0, 0, 0, 1] (0 + 2 * 2) = 1 := rfl
  have ed : nget [0, 0, 0, 0, 1] (0 + (2 - 1) * 2) = 0 := rfl
  constructor
  · have h1 : arange 1 ((([0, 0, 0, 0, 1] : List ℝ).length - 0) / 2) = [1] := rfl
    simp only [higuchi_Lmk, h1, List.map_cons, List.map_nil, List.sum_cons,
      List.sum_nil, ea, eb]
    norm_num
  · have h2 : (([0, 0, 0, 0, 1] : List ℝ).length - 1 - 0) / 2 = 2 := rfl
    simp only [higuchi_Lmk_claim, h2]
    rw [show (2 : ℕ) = 1 + 1 from rfl, Finset.sum_Icc_succ_top (by omega)]
    simp only [Finset.Icc_self, Finset.sum_singleton, ea, eb, ec, ed]
    norm_num

/-- C4 amended: the per-offset curve length of the code equals the sum of
the k-spaced absolute differences for indices `1 ≤ i < (N−m)//k` — the
final available difference is omitted whenever `k` does not divide `N−m` —
scaled by `(N−1)/(((N−m)//k)·k)`; `Lk` averages these over the `k`
offsets, and the estimator is the degree-1 least-squares slope of
`log(1/k)` against `log Lk` over `k ∈ [1, min(kMax, N/2)]`. -/
theorem higuchi_formula_amended (ts : List ℝ) (kmax : ℕ) :
    (∀ k m : ℕ, higuchi_Lmk ts k m = higuchi_Lmk_amended ts k m) ∧
      (∀ k : ℕ, higuchi_Lk ts k = higuchi_Lk_amended ts k) ∧
      vectorized_higuchi_fd ts kmax = higuchiFD_amended ts kmax := by
  have hLmk : ∀ k m : ℕ, higuchi_Lmk ts k m = higuchi_Lmk_amended ts k m := by
    intro k m
    simp only [higuchi_Lmk, higuchi_Lmk_amended]
    rw [sum_map_arange]
  have hLk : ∀ k : ℕ, higuchi_Lk ts k = higuchi_Lk_amended ts k := by
    intro k
    simp only [higuchi_Lk, higuchi_Lk_amended, sum_map_range]
    exact congrArg (· / (k : ℝ)) (Finset.sum_congr rfl (fun m _ => hLmk k m))
  refine ⟨hLmk, hLk, ?_⟩
  simp only [vectorized_higuchi_fd, higuchiFD_amended]
  exact congrArg
    (polyfit_slope ((higuchi_krange ts.length kmax).map (fun k => Real.log (1 / (k : ℝ)))))
    (List.map_congr_left (fun k _ => by rw [hLk k]))

/-! ## Claim C3 -/

/-- Indexing an all-zero buffer always yields zero, so every k-spaced
difference of the Higuchi sum vanishes. -/
lemma higuchi_Lmk_replicate_zero (n k m : ℕ) :
    higuchi_Lmk (List.replicate n (0 : ℝ)) k m = 0 := by
  simp [higuchi_Lmk, nget_replicate]

/-- Every Higuchi curve length of an all-zero buffer is zero. -/
lemma higuchi_Lk_replicate_zero (n k : ℕ) :
    higuchi_Lk (List.replicate n (0 : ℝ)) k = 0 := by
  simp [higuchi_Lk, higuchi_Lmk_replicate_zero]

/-- Scanning an all-zero buffer with running sums keeps every prefix sum
at the initial accumulator. -/
lemma scanl_add_replicate_zero (n : ℕ) (a : ℝ) :
    (List.replicate n (0 : ℝ)).scanl (· + ·) a = List.replicate (n + 1) a := by
  induction n generalizing a with
  | zero => simp [List.scanl]
  | succ n ih => simp [List.replicate_succ, List.scanl_cons, ih, List.replicate_succ]

/-- The integrated DFA profile of an all-zero buffer is all-zero. -/
lemma dfa_profile_replicate_zero (n : ℕ) :
    dfa_profile (List.replicate n (0 : ℝ)) = List.replicate n 0 := by
  have hm : rmean (List.replicate n (0 : ℝ)) = 0 := by
    simp [rmean]
  simp [dfa_profile, cumsum, hm, List.map_replicate, scanl_add_replicate_zero]

/-- Pointwise products against an all-zero buffer sum to zero. -/
lemma zipWith_mul_replicate_zero :
    ∀ (xs : List ℝ) (r : ℕ),
      (List.zipWith (· * ·) xs (List.replicate r (0 : ℝ))).sum = 0 := by
  intro xs
  induction xs with
  | nil => intro r; simp
  | cons x xs ih =>
    intro r
    cases r with
    | zero => simp
    | succ r => simp [List.replicate_succ, ih r]

/-- The detrended root-mean-square residual of an all-zero segment is
zero: the fitted trend is the zero line and every residual vanishes. -/
lemma detrended_rms_replicate_zero (s r : ℕ) :
    detrended_rms s (List.replicate r (0 : ℝ)) = 0 := by
  have hslope :
      polyfit_slope ((List.range s).map (fun i => (i : ℝ)))
        (List.replicate r 0) = 0 := by
    simp only [polyfit_slope, zipWith_mul_replicate_zero, List.sum_replicate,
      smul_zero, mul_zero, sub_zero, zero_div]
  have hicept :
      polyfit_intercept ((List.range s).map (fun i => (i : ℝ)))
        (List.replicate r 0) = 0 := by
    simp only [polyfit_intercept, hslope, List.sum_replicate, smul_zero,
      zero_mul, zero_sub, neg_zero, zero_div]
  simp only [detrended_rms, hslope, hicept]
  have hmap : (List.range s).map
        (fun i => (nget (List.replicate r (0 : ℝ)) i - (0 * (i : ℝ) + 0)) ^ 2)
      = (List.range s).map (fun _ => (0 : ℝ)) := by
    refine List.map_congr_left (fun i _ => ?_)
    rw [nget_replicate]
    norm_num
  rw [hmap, rmean, List.sum_eq_zero, zero_div, Real.sqrt_zero]
  intro x hx
  simp only [List.mem_map] at hx
  obtain ⟨i, -, rfl⟩ := hx
  rfl

/-- Every DFA fluctuation of an all-zero buffer is zero. -/
lemma dfa_F_replicate_zero (n s : ℕ) :
    dfa_F (List.replicate n (0 : ℝ)) s = 0 := by
  simp only [dfa_F, dfa_segment, dfa_profile_replicate_zero,
    List.drop_replicate, List.take_replicate]
  simp [detrended_rms_replicate_zero]

/-- C3 (the code evaluated at the failing input): on an all-zero buffer —
every analysis window of the 10-second, 16000 Hz silence scenario — every
Higuchi curve length `Lk` and every DFA fluctuation `F(s)` is exactly 0,
so both estimators hand `0` straight to `np.log`; the code contains no
degeneracy guard and no `DegenerateSignal` condition exists anywhere in
the program. -/
theorem silence_degenerate (n k s : ℕ) :
    higuchi_Lk (List.replicate n (0 : ℝ)) k = 0 ∧
      dfa_F (List.replicate n (0 : ℝ)) s = 0 :=
  ⟨higuchi_Lk_replicate_zero n k, dfa_F_replicate_zero n s⟩

/-! ## Claim C8 -/

/-- Scaling every element scales the sum. -/
lemma sum_map_mul (c : ℝ) (xs : List ℝ) :
    (xs.map (fun x => c * x)).sum = c * xs.sum := by
  induction xs with
  | nil => simp
  | cons x xs ih => simp [ih, mul_add]

/-- Scaling every element scales the mean. -/
lemma rmean_map_mul (c : ℝ) (xs : List ℝ) :
    rmean (xs.map (fun x => c * x)) = c * rmean xs := by
  simp [rmean, sum_map_mul, mul_div_assoc]

/-- Scaling every element scales the population variance quadratically. -/
lemma rvar_map_mul (c : ℝ) (xs : List ℝ) :
    rvar (xs.map (fun x => c * x)) = c ^ 2 * rvar xs := by
  simp only [rvar, rmean_map_mul, List.map_map]
  have hfun : ((fun x => (x - c * rmean xs) ^ 2) ∘ fun x => c * x)
      = fun x => c ^ 2 * ((x - rmean xs) ^ 2) := by
    funext x
    simp only [Function.comp_apply]
    ring
  rw [hfun]
  have h : xs.map (fun x => c ^ 2 * ((x - rmean xs) ^ 2))
      = (xs.map (fun x => (x - rmean xs) ^ 2)).map (fun y => c ^ 2 * y) := by
    simp [List.map_map, Function.comp_def]
  rw [h, rmean_map_mul]

/-- Scaling every element by a nonnegative factor scales `np.std`
linearly. -/
lemma npStd_map_mul (c : ℝ) (hc : 0 ≤ c) (xs : List ℝ) :
    npStd (xs.map (fun x => c * x)) = c * npStd xs := by
  rw [npStd, npStd, rvar_map_mul, Real.sqrt_mul (sq_nonneg c), Real.sqrt_sq hc]

/-- C8: for a non-empty pooled feature collection, multiplying every
pooled value by a positive constant `c` multiplies `threshold − mean` by
`c`, where `threshold = mean + 0.25 · std`: the adaptive threshold tracks
distributional spread linearly. -/
theorem threshold_scaling (xs : List ℝ) (c : ℝ) (_hxs : xs ≠ []) (hc : 0 < c) :
    adaptive_threshold_of (xs.map (fun x => c * x))
        - rmean (xs.map (fun x => c * x))
      = c * (adaptive_threshold_of xs - rmean xs) := by
  simp only [adaptive_threshold_of, npStd_map_mul c hc.le]
  ring

/-- Witness for C8 at the pooled collection `[1, 2]` and factor `c = 2`. -/
theorem threshold_scaling_witness :
    ([(1 : ℝ), 2] ≠ []) ∧ (0 : ℝ) < 2 ∧
      adaptive_threshold_of ([(1 : ℝ), 2].map (fun x => 2 * x))
          - rmean ([(1 : ℝ), 2].map (fun x => 2 * x))
        = 2 * (adaptive_threshold_of [(1 : ℝ), 2] - rmean [(1 : ℝ), 2]) :=
  ⟨by simp, two_pos, threshold_scaling [(1 : ℝ), 2] 2 (by simp) two_pos⟩

end VoiceKey
